import Mathlib

/-!
# Companion-JSON resolution for Google Photos Takeout exports — verification

Shallow embedding of the helpers of the google-photos-exif repository:

* `src/helpers/get-companion-json-path-for-media-file.ts`
* `src/helpers/update-exif-metadata.ts`
* `src/helpers/does-exif-date-match-photo-taken-time.ts`

JavaScript strings are modelled as `List Char` (code-point level).  The
filesystem is modelled as a record of the two primitives the resolver uses,
`existsSync` and `readdirSync`; a `readdirSync` failure (an exception caught
by the surrounding `try`) is modelled as `none`.  `path.resolve(dir, name)`
is modelled as `dir ++ "/" ++ name`, which agrees with Node for an absolute
normalised `dir` and a plain (slash-free) entry name — the only way the
code calls it.  `path.dirname`, `path.basename` and `path.extname` are
translated from Node's POSIX implementations.
-/

/-- The characters a JavaScript regex `.` does not match (line terminators). -/
def lineTerm (c : Char) : Bool :=
  c == '\n' || c == '\r' || c == '\u2028' || c == '\u2029'

/-- Node `path.posix.dirname`: strip trailing slashes, then everything from the
last remaining slash onwards; `"."` when there is no directory part. -/
def dirname (p : List Char) : List Char :=
  if p.isEmpty then ['.']
  else
    let hasRoot := p.head? == some '/'
    let r1 := p.reverse.dropWhile (fun c => c == '/')
    let r2 := r1.dropWhile (fun c => c != '/')
    let pre := (r2.drop 1).reverse
    if r2.isEmpty || pre.isEmpty then (if hasRoot then ['/'] else ['.'])
    else if hasRoot && pre.length == 1 then ['/', '/']
    else pre

/-- Node `path.posix.basename` (one-argument form): the last path component,
ignoring trailing slashes. -/
def basename (p : List Char) : List Char :=
  ((p.reverse.dropWhile (fun c => c == '/')).takeWhile (fun c => c != '/')).reverse

/-- Node `path.posix.basename(p, ext)`: the basename with the suffix `ext`
removed, unless the basename is exactly `ext`. -/
def basenameExt (p ext : List Char) : List Char :=
  let b := basename p
  if !ext.isEmpty && ext.isSuffixOf b && b != ext then b.take (b.length - ext.length) else b

/-- Node `path.posix.extname`: the extension including the leading dot; empty
when there is no dot, when the only dot starts the basename, or for `".."`. -/
def extname (p : List Char) : List Char :=
  let b := basename p
  if b == ['.', '.'] then []
  else
    let preRev := b.reverse.takeWhile (fun c => c != '.')
    if preRev.length == b.length then []
    else if preRev.length + 1 == b.length then []
    else '.' :: preRev.reverse

/-- Model of Node `path.resolve(dir, name)` for an absolute normalised `dir`
and a slash-free `name`. -/
def resolvePath (dir name : List Char) : List Char := dir ++ '/' :: name

/-- Split a trailing counter group: `counterSplit s = some (pre, "(" ++ ds ++ ")")`
when `s = pre ++ "(" ++ ds ++ ")"` with `ds` a nonempty run of ASCII digits
(the parse is unique, taking the rightmost possible `(`).  This is the shared
backbone of the regexes `/\(\d+\)$/` and `/(?<name>.*)(?<counter>\(\d+\))$/`
used at lines 29, 92, 94, 144 and 171 of the resolver source. -/
def counterSplit (s : List Char) : Option (List Char × List Char) :=
  match s.reverse with
  | ')' :: rest =>
    let ds := rest.takeWhile Char.isDigit
    if ds.isEmpty then none
    else
      match rest.drop ds.length with
      | '(' :: preRev => some (preRev.reverse, '(' :: (ds.reverse ++ [')']))
      | _ => none
  | _ => none

/-- `/\(\d+\)$/.test(s)` (line 94 of the resolver source). -/
def endsWithCounter (s : List Char) : Bool := (counterSplit s).isSome

/-- `/\(\d+\)\.json$/.test(f)` (line 92 of the resolver source). -/
def hasCounterSuffixJson (f : List Char) : Bool :=
  (".json".data).isSuffixOf f && endsWithCounter (f.take (f.length - 5))

/-- `s.match(/(?<name>.*)(?<counter>\(\d+\))$/)` (line 29 of the resolver
source).  JavaScript `.` does not cross line terminators and the engine takes
the first matching start position, so the `name` group is the part of the
pre-counter segment that follows its last line terminator. -/
def nameWithCounterMatch (s : List Char) : Option (List Char × List Char) :=
  match counterSplit s with
  | some (pre, counter) =>
    some ((pre.reverse.takeWhile (fun c => !lineTerm c)).reverse, counter)
  | none => none

/-- `s.match(/^(.+?)\(\d+\)$/)` (line 171 of the resolver source): anchored at
both ends, so it succeeds only when the pre-counter part is nonempty and free
of line terminators; the group is then the whole pre-counter part. -/
def baseNameMatch (s : List Char) : Option (List Char) :=
  match counterSplit s with
  | some (pre, _) =>
    if pre.isEmpty || pre.any lineTerm then none else some pre
  | none => none

/-- `s.replace(/[-]edited$/i, '')` (line 13 of the resolver source): remove one
trailing `-edited`, compared case-insensitively. -/
def stripEditedSuffix (s : List Char) : List Char :=
  if ("-edited".data).isSuffixOf (s.map Char.toLower) then s.take (s.length - 7) else s

/-- The `potentialJsonFileNames` list built at lines 19–52 of the resolver
source: the three direct-name candidates, the two counter-relocation
candidates when the stem ends with a counter, and the three
trailing-character-recovery candidates when the stem ends with `_n-`, `_n`
or `_`. -/
def potentialJsonFileNames (stem ext : List Char) : List (List Char) :=
  let base := [stem ++ ".json".data,
               stem ++ ext ++ ".json".data,
               stem ++ ext ++ ".supplemental-metadata.json".data]
  let withCounter :=
    match nameWithCounterMatch stem with
    | some (name, counter) =>
      base ++ [name ++ ext ++ counter ++ ".json".data,
               name ++ ext ++ ".supplemental-metadata".data ++ counter ++ ".json".data]
    | none => base
  if ("_n-".data).isSuffixOf stem || ("_n".data).isSuffixOf stem
      || ("_".data).isSuffixOf stem then
    let baseNameWithoutExtraChar := stem.take (stem.length - 1)
    withCounter ++ [baseNameWithoutExtraChar ++ ".json".data,
                    baseNameWithoutExtraChar ++ ext ++ ".json".data,
                    baseNameWithoutExtraChar ++ ext ++ ".supplemental-metadata.json".data]
  else withCounter

/-- The filesystem as seen by the resolver: the two `fs` primitives it calls.
`readdirSync = none` models the call throwing (caught by the `try` blocks).
The filesystem is treated as static during one resolution (spec §5). -/
structure FileSystem where
  existsSync : List Char → Bool
  readdirSync : List Char → Option (List (List Char))

/-- `mediaFileNameWithoutExtension` after the `-edited` normalisation
(lines 8–13 of the resolver source). -/
def mediaFileNameWithoutExtension (mediaFilePath : List Char) : List Char :=
  stripEditedSuffix (basenameExt mediaFilePath (extname mediaFilePath))

/-- The loop over `potentialJsonFileNames` at lines 56–61 of the resolver
source: return the first candidate name that exists, resolved against the
directory. -/
def directNameLookup (fs : FileSystem) (dir stem ext : List Char) : Option (List Char) :=
  ((potentialJsonFileNames stem ext).find?
    (fun n => fs.existsSync (resolvePath dir n))).map (resolvePath dir)

/-- The `supplemental-metadata` directory scan at lines 66–79 of the resolver
source; a failed `readdirSync` contributes nothing. -/
def fallbackSupplementalScan (fs : FileSystem) (dir stem : List Char) : Option (List Char) :=
  match fs.readdirSync dir with
  | some files =>
    (files.find? (fun f =>
      stem.isPrefixOf f && (".supplemental-metadata.json".data).isSuffixOf f
        && fs.existsSync (resolvePath dir f))).map (resolvePath dir)
  | none => none

/-- The counter-parity-gated `.json` directory scan at lines 85–105 of the
resolver source. -/
def fallbackJsonScan (fs : FileSystem) (dir stem : List Char) : Option (List Char) :=
  match fs.readdirSync dir with
  | some files =>
    (files.find? (fun f =>
      stem.isPrefixOf f && (".json".data).isSuffixOf f
        && (hasCounterSuffixJson f == endsWithCounter stem)
        && fs.existsSync (resolvePath dir f))).map (resolvePath dir)
  | none => none

/-- The reverse-truncation directory scan at lines 111–127 of the resolver
source: accept a `.json` entry whose name minus `.json` the media stem
starts with. -/
def fallbackReverseTruncation (fs : FileSystem) (dir stem : List Char) : Option (List Char) :=
  match fs.readdirSync dir with
  | some files =>
    (files.find? (fun f =>
      (".json".data).isSuffixOf f && (f.take (f.length - 5)).isPrefixOf stem
        && fs.existsSync (resolvePath dir f))).map (resolvePath dir)
  | none => none

/-- The video extension list of line 132 of the resolver source. -/
def videoExtensions : List (List Char) :=
  [".mp4".data, ".mov".data, ".avi".data, ".mkv".data, ".webm".data,
   ".flv".data, ".wmv".data, ".m4v".data]

/-- The `imageExtensions` list of line 133 of the resolver source. -/
def imageExtensions : List (List Char) :=
  [".jpg".data, ".jpeg".data, ".png".data, ".gif".data, ".bmp".data,
   ".heic".data, ".webp".data]

/-- Case 1 of the video→image fallback loop body (lines 136–167 of the
resolver source): if a sibling image with the same name (counter included)
exists, try the counter-relocated supplemental name, then the two standard
companion names. -/
def videoCompanionCase1 (fs : FileSystem) (dir stem imgExt : List Char) :
    Option (List Char) :=
  if fs.existsSync (resolvePath dir (stem ++ imgExt)) then
    let fromCounter : Option (List Char) :=
      match counterSplit stem with
      | some (baseNameWithoutCounter, counter) =>
        let jsonWithCounterPath :=
          resolvePath dir (baseNameWithoutCounter ++ imgExt
            ++ ".supplemental-metadata".data ++ counter ++ ".json".data)
        if fs.existsSync jsonWithCounterPath then some jsonWithCounterPath else none
      | none => none
    fromCounter.or
      (([stem ++ imgExt ++ ".json".data,
         stem ++ imgExt ++ ".supplemental-metadata.json".data].find?
           (fun c => fs.existsSync (resolvePath dir c))).map (resolvePath dir))
  else none

/-- Case 2 of the video→image fallback loop body (lines 169–197 of the
resolver source): if the stem carries a counter and the counter-free sibling
image exists, try its supplemental name then its plain `.json` name. -/
def videoCompanionCase2 (fs : FileSystem) (dir stem imgExt : List Char) :
    Option (List Char) :=
  match baseNameMatch stem with
  | some baseNameWithoutCounter =>
    if fs.existsSync (resolvePath dir (baseNameWithoutCounter ++ imgExt)) then
      let jsonBasePath := resolvePath dir (baseNameWithoutCounter ++ imgExt
        ++ ".supplemental-metadata.json".data)
      if fs.existsSync jsonBasePath then some jsonBasePath
      else
        ([baseNameWithoutCounter ++ imgExt ++ ".json".data].find?
          (fun c => fs.existsSync (resolvePath dir c))).map (resolvePath dir)
    else none
  | none => none

/-- One iteration of the `for (const imgExt of imageExtensions)` loop at
lines 135–198 of the resolver source: case 1, early-returning, then case 2. -/
def videoCompanionForImageExt (fs : FileSystem) (dir stem imgExt : List Char) :
    Option (List Char) :=
  (videoCompanionCase1 fs dir stem imgExt).or (videoCompanionCase2 fs dir stem imgExt)

/-- The video→image cross-media fallback at lines 129–199 of the resolver
source, gated on the (lower-cased) media extension being a video extension. -/
def videoCompanionFallback (fs : FileSystem) (dir stem ext : List Char) : Option (List Char) :=
  if videoExtensions.contains (ext.map Char.toLower) then
    imageExtensions.findSome? (videoCompanionForImageExt fs dir stem)
  else none

/-- `getCompanionJsonPathForMediaFile` (lines 5–204 of
src/helpers/get-companion-json-path-for-media-file.ts): the strategies in
source order, each early-returning its first hit. -/
def getCompanionJsonPathForMediaFile (fs : FileSystem) (mediaFilePath : List Char) :
    Option (List Char) :=
  let directoryPath := dirname mediaFilePath
  let mediaFileExtension := extname mediaFilePath
  let stem := mediaFileNameWithoutExtension mediaFilePath
  (directNameLookup fs directoryPath stem mediaFileExtension).or
    ((fallbackSupplementalScan fs directoryPath stem).or
      ((fallbackJsonScan fs directoryPath stem).or
        ((fallbackReverseTruncation fs directoryPath stem).or
          (videoCompanionFallback fs directoryPath stem mediaFileExtension))))

/-! ## Spec-side candidate order (spec §4.2–§4.5, state-machine view §4.5)

`candidatePaths` lists, in the spec's total priority order, every candidate
path the resolver may return: priority 1 (direct names, including the
counter-relocation names), priority 2 (trailing-character recovery),
priorities 3–5 (the three directory scans, in directory-listing order, empty
when the listing cannot be obtained), and priority 6 (the video→image
fallback, whose candidate lists are gated on the sibling image existing).
The refinement theorem states that the resolver returns exactly the first
entry of this list that exists. -/

/-- Priority-1 candidates: the three direct names plus the two
counter-relocation names (spec §4.2). -/
def directNameCandidates (stem ext : List Char) : List (List Char) :=
  [stem ++ ".json".data,
   stem ++ ext ++ ".json".data,
   stem ++ ext ++ ".supplemental-metadata.json".data] ++
  (match nameWithCounterMatch stem with
   | some (name, counter) =>
     [name ++ ext ++ counter ++ ".json".data,
      name ++ ext ++ ".supplemental-metadata".data ++ counter ++ ".json".data]
   | none => [])

/-- Priority-2 candidates: trailing-character recovery (spec §4.3). -/
def trailingCharCandidates (stem ext : List Char) : List (List Char) :=
  if ("_n-".data).isSuffixOf stem || ("_n".data).isSuffixOf stem
      || ("_".data).isSuffixOf stem then
    [stem.take (stem.length - 1) ++ ".json".data,
     stem.take (stem.length - 1) ++ ext ++ ".json".data,
     stem.take (stem.length - 1) ++ ext ++ ".supplemental-metadata.json".data]
  else []

/-- Priority-3 candidates: prefix + `.supplemental-metadata.json` scan
(spec §4.4, strategy 3). -/
def supplementalScanCandidates (fs : FileSystem) (dir stem : List Char) : List (List Char) :=
  match fs.readdirSync dir with
  | some files =>
    (files.filter (fun f =>
      stem.isPrefixOf f && (".supplemental-metadata.json".data).isSuffixOf f)).map
        (resolvePath dir)
  | none => []

/-- Priority-4 candidates: prefix + `.json` scan, counter-parity gated
(spec §4.4, strategy 4). -/
def jsonScanCandidates (fs : FileSystem) (dir stem : List Char) : List (List Char) :=
  match fs.readdirSync dir with
  | some files =>
    (files.filter (fun f =>
      stem.isPrefixOf f && (".json".data).isSuffixOf f
        && (hasCounterSuffixJson f == endsWithCounter stem))).map (resolvePath dir)
  | none => []

/-- Priority-5 candidates: reverse-truncation scan (spec §4.4, strategy 5). -/
def reverseTruncationCandidates (fs : FileSystem) (dir stem : List Char) : List (List Char) :=
  match fs.readdirSync dir with
  | some files =>
    (files.filter (fun f =>
      (".json".data).isSuffixOf f && (f.take (f.length - 5)).isPrefixOf stem)).map
        (resolvePath dir)
  | none => []

/-- Priority-6 case-6a candidates for one image extension, gated on the
same-name sibling image existing (spec §4.5). -/
def videoCase1Candidates (fs : FileSystem) (dir stem imgExt : List Char) :
    List (List Char) :=
  if fs.existsSync (resolvePath dir (stem ++ imgExt)) then
    (match counterSplit stem with
     | some (b, counter) =>
       [resolvePath dir (b ++ imgExt ++ ".supplemental-metadata".data
         ++ counter ++ ".json".data)]
     | none => []) ++
    [resolvePath dir (stem ++ imgExt ++ ".json".data),
     resolvePath dir (stem ++ imgExt ++ ".supplemental-metadata.json".data)]
  else []

/-- Priority-6 case-6b candidates for one image extension, gated on the
counter-free sibling image existing (spec §4.5). -/
def videoCase2Candidates (fs : FileSystem) (dir stem imgExt : List Char) :
    List (List Char) :=
  match baseNameMatch stem with
  | some b =>
    if fs.existsSync (resolvePath dir (b ++ imgExt)) then
      [resolvePath dir (b ++ imgExt ++ ".supplemental-metadata.json".data),
       resolvePath dir (b ++ imgExt ++ ".json".data)]
    else []
  | none => []

/-- Priority-6 candidates for one image extension: case 6a then case 6b
(spec §4.5). -/
def videoFallbackCandidatesForExt (fs : FileSystem) (dir stem imgExt : List Char) :
    List (List Char) :=
  videoCase1Candidates fs dir stem imgExt ++ videoCase2Candidates fs dir stem imgExt

/-- Priority-6 candidates: the video→image fallback, only for video media
extensions (spec §4.5). -/
def videoFallbackCandidates (fs : FileSystem) (dir stem ext : List Char) : List (List Char) :=
  if videoExtensions.contains (ext.map Char.toLower) then
    imageExtensions.flatMap (videoFallbackCandidatesForExt fs dir stem)
  else []

/-- All candidate paths in the spec's fixed total order of priorities 1–6. -/
def candidatePaths (fs : FileSystem) (mediaFilePath : List Char) : List (List Char) :=
  let dir := dirname mediaFilePath
  let ext := extname mediaFilePath
  let stem := mediaFileNameWithoutExtension mediaFilePath
  (directNameCandidates stem ext).map (resolvePath dir) ++
  (trailingCharCandidates stem ext).map (resolvePath dir) ++
  supplementalScanCandidates fs dir stem ++
  jsonScanCandidates fs dir stem ++
  reverseTruncationCandidates fs dir stem ++
  videoFallbackCandidates fs dir stem ext

/-! ## Concrete filesystems used as witnesses -/

/-- A directory at `dir` holding exactly `entries`: `existsSync` succeeds on
the resolved path of each entry, `readdirSync` succeeds only on `dir`. -/
def fsOfDir (dir : List Char) (entries : List (List Char)) : FileSystem :=
  { existsSync := fun p => entries.any (fun e => resolvePath dir e == p),
    readdirSync := fun d => if d == dir then some entries else none }

/-- `/photos` holding `foo(1).jpg` and `foo.jpg(1).json` (spec §8, third
property). -/
def fsFoo : FileSystem :=
  fsOfDir ("/photos".data) [("foo(1).jpg".data), ("foo.jpg(1).json".data)]

/-- `/photos` holding `SNOW.mp4` and `SNOW.mp4.supplemental-metadata(1).json`
(spec §8, fourth property). -/
def fsSNOW : FileSystem :=
  fsOfDir ("/photos".data)
    [("SNOW.mp4".data), ("SNOW.mp4.supplemental-metadata(1).json".data)]

/-- `/photos` holding `IMG_0201.MP4`, `IMG_0201.jpg` and
`IMG_0201.jpg.supplemental-metadata.json` (spec §8, fifth property). -/
def fsIMG : FileSystem :=
  fsOfDir ("/photos".data)
    [("IMG_0201.MP4".data), ("IMG_0201.jpg".data),
     ("IMG_0201.jpg.supplemental-metadata.json".data)]

/-- `/photos` holding `foo.jpg` and its sidecar `foo.jpg.json`. -/
def fsSimple : FileSystem :=
  fsOfDir ("/photos".data) [("foo.jpg".data), ("foo.jpg.json".data)]

/-- `/photos` holding only `AB.json`. -/
def fsAB : FileSystem := fsOfDir ("/photos".data) [("AB.json".data)]

/-- A filesystem whose directory listing always fails but where
`/photos/bar.jpg.json` exists. -/
def fsNoListing : FileSystem :=
  { existsSync := fun p => p == ("/photos/bar.jpg.json".data),
    readdirSync := fun _ => none }

/-! ## Metadata writer and verifier (update-exif-metadata.ts,
does-exif-date-match-photo-taken-time.ts) -/

/-- `s.replace(pat, repl)` for plain-string `pat`: replace the first
occurrence only. -/
def replaceFirst : List Char → List Char → List Char → List Char
  | [], pat, repl => if pat.isEmpty then repl else []
  | c :: rest, pat, repl =>
    if pat.isPrefixOf (c :: rest) then repl ++ (c :: rest).drop pat.length
    else c :: replaceFirst rest pat repl

/-- Modelled from the spec: the `MediaFileInfo` record
(src/models/media-file-info.ts is not among the given sources).  Fields are
those read by update-exif-metadata.ts and
does-exif-date-match-photo-taken-time.ts; per spec §6 it carries the media
path and the resolved companion name/path, the latter possibly absent.
JavaScript truthiness of the optional string fields is `truthyStr`. -/
structure MediaFileInfo where
  mediaFileName : List Char
  outputFilePath : List Char
  jsonFileExists : Bool
  jsonFileName : Option (List Char)
  jsonFilePath : Option (List Char)

/-- JavaScript truthiness of a possibly-absent string: `null`/`undefined` and
the empty string are falsy. -/
def truthyStr : Option (List Char) → Bool
  | none => false
  | some s => !s.isEmpty

/-- The metadata tag object built at lines 29–38 of update-exif-metadata.ts:
`DateTimeOriginal` always, plus `CreateDate`/`MediaCreateDate` for the video
extensions `.mp4`, `.mov`, `.avi`. -/
structure MetadataTags where
  dateTimeOriginal : List Char
  createDate : Option (List Char)
  mediaCreateDate : Option (List Char)
deriving DecidableEq

/-- A filesystem/exiftool effect performed by `updateExifMetadata`. -/
inductive FsAction where
  | exifWrite (path : List Char) (tags : MetadataTags)
  | unlink (path : List Char)
  | copyFile (src dst : List Char)
deriving DecidableEq

/-- Modelled from the spec: the external collaborators of
update-exif-metadata.ts that are not among the given sources —
`doesFileSupportExif` (the extension capability table of spec §6), `Date`
parsing/ISO formatting (`none` models the `RangeError` of an invalid date),
the `exiftool.write` call, and the fs-promises `unlink`/`copyFile` calls.
Each is represented by its outcome on this invocation. -/
structure ExifEnv where
  doesFileSupportExif : List Char → Bool
  toIso : List Char → Option (List Char)
  writeOk : Bool
  unlinkOk : Bool
  copyOk : List Char → List Char → Bool

/-- The `catch` block at lines 44–49 of update-exif-metadata.ts: copy the
media file into the error directory under its original name, then — when the
companion JSON was resolved and exists — copy it likewise; a failing copy
rejects the promise (`Except.error`).  `done` is the trace accumulated by the
`try` block. -/
def quarantineFiles (env : ExifEnv) (fileInfo : MediaFileInfo) (errorDir : List Char)
    (done : List FsAction) : Except Unit Unit × List FsAction :=
  let mediaDst := resolvePath errorDir fileInfo.mediaFileName
  if env.copyOk fileInfo.outputFilePath mediaDst then
    let done := done ++ [FsAction.copyFile fileInfo.outputFilePath mediaDst]
    if fileInfo.jsonFileExists && truthyStr fileInfo.jsonFileName
        && truthyStr fileInfo.jsonFilePath then
      match fileInfo.jsonFilePath, fileInfo.jsonFileName with
      | some src, some name =>
        let jsonDst := resolvePath errorDir name
        if env.copyOk src jsonDst then
          (Except.ok (), done ++ [FsAction.copyFile src jsonDst])
        else (Except.error (), done)
      | _, _ => (Except.ok (), done)
    else (Except.ok (), done)
  else (Except.error (), done)

/-- `updateExifMetadata` (lines 10–50 of src/helpers/update-exif-metadata.ts).
The result is the promise outcome (`Except.error` = rejected) paired with the
trace of effects that succeeded, in order. -/
def updateExifMetadata (env : ExifEnv) (fileInfo : MediaFileInfo)
    (timeTaken errorDir : List Char) : Except Unit Unit × List FsAction :=
  if !env.doesFileSupportExif fileInfo.outputFilePath then (Except.ok (), [])
  else
    match env.toIso timeTaken with
    | none => quarantineFiles env fileInfo errorDir []
    | some isoString =>
      let utcFormattedDate :=
        replaceFirst (replaceFirst isoString ("T".data) (" ".data))
          ("Z".data) ("+00:00".data)
      let extension := (extname fileInfo.outputFilePath).map Char.toLower
      let metadataTags : MetadataTags :=
        if [".mp4".data, ".mov".data, ".avi".data].contains extension then
          { dateTimeOriginal := utcFormattedDate,
            createDate := some utcFormattedDate,
            mediaCreateDate := some utcFormattedDate }
        else
          { dateTimeOriginal := utcFormattedDate,
            createDate := none, mediaCreateDate := none }
      if env.writeOk then
        if env.unlinkOk then
          (Except.ok (),
           [FsAction.exifWrite fileInfo.outputFilePath metadataTags,
            FsAction.unlink (fileInfo.outputFilePath ++ "_original".data)])
        else
          quarantineFiles env fileInfo errorDir
            [FsAction.exifWrite fileInfo.outputFilePath metadataTags]
      else quarantineFiles env fileInfo errorDir []

/-- Modelled from the spec: the external collaborators of
does-exif-date-match-photo-taken-time.ts that are not among the given
sources — `doesFileSupportExif` (spec §6 capability table),
`readPhotoTakenTimeFromGoogleJson` (`none` models a null/undefined result),
the `exiftool.read` call (`none` models the call throwing, `some none` a
missing `DateTimeOriginal`), and `new Date(...).toISOString()` for the read
EXIF value (`none` models it throwing). -/
structure VerifyEnv where
  doesFileSupportExif : List Char → Bool
  photoTakenTime : Option (List Char)
  exifRead : Option (Option (List Char))
  dateToIso : List Char → Option (List Char)

/-- `doesExifDateMatchPhotoTakenTime` (lines 7–33 of
src/helpers/does-exif-date-match-photo-taken-time.ts). -/
def doesExifDateMatchPhotoTakenTime (env : VerifyEnv) (mediaFile : MediaFileInfo) : Bool :=
  if !env.doesFileSupportExif mediaFile.outputFilePath then true
  else
    match env.photoTakenTime with
    | none => true
    | some photoTakenTime =>
      match env.exifRead with
      | none => true
      | some none => false
      | some (some exifDate) =>
        match env.dateToIso exifDate with
        | none => true
        | some exifDateIso => exifDateIso == photoTakenTime

/-- Witness environment: EXIF supported everywhere, `Date` parsing succeeds
verbatim, the metadata write fails, both quarantine copies succeed. -/
def envWriteFails : ExifEnv :=
  { doesFileSupportExif := fun _ => true,
    toIso := fun t => some t,
    writeOk := false, unlinkOk := true,
    copyOk := fun _ _ => true }

/-- Witness environment: the write succeeds but deleting the
`_original` backup fails; both quarantine copies succeed. -/
def envUnlinkFails : ExifEnv :=
  { doesFileSupportExif := fun _ => true,
    toIso := fun t => some t,
    writeOk := true, unlinkOk := false,
    copyOk := fun _ _ => true }

/-- Witness environment: no file supports EXIF. -/
def envNoExif : ExifEnv :=
  { doesFileSupportExif := fun _ => false,
    toIso := fun t => some t,
    writeOk := true, unlinkOk := true,
    copyOk := fun _ _ => true }

/-- Witness file record with a resolved, existing companion JSON. -/
def fiWitness : MediaFileInfo :=
  { mediaFileName := "a.jpg".data,
    outputFilePath := "/out/a.jpg".data,
    jsonFileExists := true,
    jsonFileName := some ("a.jpg.json".data),
    jsonFilePath := some ("/in/a.jpg.json".data) }

/-- Witness verifier environment: the `exiftool.read` call throws. -/
def venvReadFails : VerifyEnv :=
  { doesFileSupportExif := fun _ => true,
    photoTakenTime := some ("2020-01-01T00:00:00.000Z".data),
    exifRead := none,
    dateToIso := fun d => some d }

/-- Witness verifier environment: EXIF unsupported, everything else in a
state that would otherwise report a mismatch. -/
def venvNoExif : VerifyEnv :=
  { doesFileSupportExif := fun _ => false,
    photoTakenTime := some ("2020-01-01T00:00:00.000Z".data),
    exifRead := some none,
    dateToIso := fun d => some d }

/-! ## Helper lemmas -/

theorem find?_filter_and {α : Type} (l : List α) (q p : α → Bool) :
    (l.filter q).find? p = l.find? (fun a => q a && p a) := by
  induction l with
  | nil => rfl
  | cons a l ih =>
    cases hq : q a <;> cases hp : p a <;>
      simp [List.filter_cons, List.find?_cons, hq, hp, ih]

theorem findSome?_eq_flatMap_find? {α β : Type} (φ : α → Option β) (ψ : α → List β)
    (p : β → Bool) (h : ∀ x, φ x = (ψ x).find? p) (l : List α) :
    l.findSome? φ = (l.flatMap ψ).find? p := by
  induction l with
  | nil => rfl
  | cons x xs ih =>
    rw [List.flatMap_cons, List.find?_append, ← ih, List.findSome?_cons, h x]
    cases (ψ x).find? p <;> simp [Option.or]

theorem potentialJsonFileNames_eq (stem ext : List Char) :
    potentialJsonFileNames stem ext =
      directNameCandidates stem ext ++ trailingCharCandidates stem ext := by
  unfold potentialJsonFileNames directNameCandidates trailingCharCandidates
  cases hm : nameWithCounterMatch stem with
  | none => simp only [hm]; split <;> simp
  | some nc => obtain ⟨name, counter⟩ := nc; simp only [hm]; split <;> simp

theorem find?_map_lam {α β : Type} (g : α → β) (l : List α) (p : β → Bool) :
    (l.map g).find? p = (l.find? (fun a => p (g a))).map g := by
  induction l with
  | nil => rfl
  | cons a l ih => cases hp : p (g a) <;> simp [List.find?_cons, hp, ih]

theorem directNameLookup_eq (fs : FileSystem) (dir stem ext : List Char) :
    directNameLookup fs dir stem ext =
      (((directNameCandidates stem ext).map (resolvePath dir)).find? fs.existsSync).or
        (((trailingCharCandidates stem ext).map (resolvePath dir)).find? fs.existsSync) := by
  unfold directNameLookup
  rw [potentialJsonFileNames_eq, List.find?_append, find?_map_lam, find?_map_lam]
  cases (directNameCandidates stem ext).find? (fun n => fs.existsSync (resolvePath dir n)) <;>
    cases (trailingCharCandidates stem ext).find? (fun n => fs.existsSync (resolvePath dir n)) <;>
      simp [Option.or]

theorem fallbackSupplementalScan_eq (fs : FileSystem) (dir stem : List Char) :
    fallbackSupplementalScan fs dir stem =
      (supplementalScanCandidates fs dir stem).find? fs.existsSync := by
  unfold fallbackSupplementalScan supplementalScanCandidates
  cases fs.readdirSync dir with
  | none => rfl
  | some files =>
    rw [List.find?_map, find?_filter_and]
    congr 1

theorem fallbackJsonScan_eq (fs : FileSystem) (dir stem : List Char) :
    fallbackJsonScan fs dir stem =
      (jsonScanCandidates fs dir stem).find? fs.existsSync := by
  unfold fallbackJsonScan jsonScanCandidates
  cases fs.readdirSync dir with
  | none => rfl
  | some files =>
    rw [List.find?_map, find?_filter_and]
    congr 1

theorem fallbackReverseTruncation_eq (fs : FileSystem) (dir stem : List Char) :
    fallbackReverseTruncation fs dir stem =
      (reverseTruncationCandidates fs dir stem).find? fs.existsSync := by
  unfold fallbackReverseTruncation reverseTruncationCandidates
  cases fs.readdirSync dir with
  | none => rfl
  | some files =>
    rw [List.find?_map, find?_filter_and]
    congr 1

theorem videoCompanionCase1_eq (fs : FileSystem) (dir stem imgExt : List Char) :
    videoCompanionCase1 fs dir stem imgExt =
      (videoCase1Candidates fs dir stem imgExt).find? fs.existsSync := by
  have hstd : ∀ (q1 q2 : List Char),
      (([q1, q2].find? (fun c => fs.existsSync (resolvePath dir c))).map (resolvePath dir)) =
        [resolvePath dir q1, resolvePath dir q2].find? fs.existsSync := by
    intro q1 q2
    cases ha : fs.existsSync (resolvePath dir q1) <;>
      cases hb : fs.existsSync (resolvePath dir q2) <;>
        simp [List.find?_cons, ha, hb]
  unfold videoCompanionCase1 videoCase1Candidates
  cases h1 : fs.existsSync (resolvePath dir (stem ++ imgExt))
  · simp only [h1, Bool.false_eq_true, if_false, List.find?_nil]
  · cases hcs : counterSplit stem with
    | none =>
      simp only [h1, hcs, if_true, List.nil_append, Option.none_or]
      exact hstd _ _
    | some bc =>
      obtain ⟨b, c⟩ := bc
      simp only [h1, hcs, if_true, List.cons_append, List.nil_append]
      cases h2 : fs.existsSync (resolvePath dir (b ++ imgExt
          ++ ".supplemental-metadata".data ++ c ++ ".json".data))
      · simp only [h2, Bool.false_eq_true, if_false, Option.none_or, List.find?_cons]
        exact hstd _ _
      · simp only [h2, if_true, List.find?_cons, Option.or]

theorem videoCompanionCase2_eq (fs : FileSystem) (dir stem imgExt : List Char) :
    videoCompanionCase2 fs dir stem imgExt =
      (videoCase2Candidates fs dir stem imgExt).find? fs.existsSync := by
  have hone : ∀ (q1 : List Char),
      (([q1].find? (fun c => fs.existsSync (resolvePath dir c))).map (resolvePath dir)) =
        [resolvePath dir q1].find? fs.existsSync := by
    intro q1
    cases ha : fs.existsSync (resolvePath dir q1) <;> simp [List.find?_cons, ha]
  unfold videoCompanionCase2 videoCase2Candidates
  cases hbm : baseNameMatch stem with
  | none => simp only [hbm, List.find?_nil]
  | some b =>
    simp only [hbm]
    cases h2 : fs.existsSync (resolvePath dir (b ++ imgExt))
    · simp only [h2, Bool.false_eq_true, if_false, List.find?_nil]
    · simp only [h2, if_true]
      cases h3 : fs.existsSync (resolvePath dir (b ++ imgExt
          ++ ".supplemental-metadata.json".data))
      · simp only [h3, Bool.false_eq_true, if_false, List.find?_cons]
        exact hone _
      · simp only [h3, if_true, List.find?_cons]

theorem videoCompanionForImageExt_eq (fs : FileSystem) (dir stem imgExt : List Char) :
    videoCompanionForImageExt fs dir stem imgExt =
      (videoFallbackCandidatesForExt fs dir stem imgExt).find? fs.existsSync := by
  unfold videoCompanionForImageExt videoFallbackCandidatesForExt
  rw [List.find?_append, videoCompanionCase1_eq, videoCompanionCase2_eq]

theorem videoCompanionFallback_eq (fs : FileSystem) (dir stem ext : List Char) :
    videoCompanionFallback fs dir stem ext =
      (videoFallbackCandidates fs dir stem ext).find? fs.existsSync := by
  unfold videoCompanionFallback videoFallbackCandidates
  cases h : videoExtensions.contains (ext.map Char.toLower)
  · simp [h]
  · simp only [h, if_true]
    exact findSome?_eq_flatMap_find? _ _ _
      (fun x => videoCompanionForImageExt_eq fs dir stem x) imageExtensions

/-- The refinement backbone: the resolver returns exactly the first entry of
`candidatePaths` (the spec's total candidate order) that exists. -/
theorem getCompanion_eq_first_existing (fs : FileSystem) (mediaFilePath : List Char) :
    getCompanionJsonPathForMediaFile fs mediaFilePath =
      (candidatePaths fs mediaFilePath).find? fs.existsSync := by
  simp only [getCompanionJsonPathForMediaFile, candidatePaths]
  rw [List.find?_append, List.find?_append, List.find?_append, List.find?_append,
      List.find?_append, directNameLookup_eq, fallbackSupplementalScan_eq,
      fallbackJsonScan_eq, fallbackReverseTruncation_eq, videoCompanionFallback_eq]
  simp only [Option.or_assoc]

theorem nameWithCounterMatch_of_clean (stem pre counter : List Char)
    (h : counterSplit stem = some (pre, counter))
    (hc : pre.all (fun c => !lineTerm c) = true) :
    nameWithCounterMatch stem = some (pre, counter) := by
  simp only [nameWithCounterMatch, h]
  have hself : pre.reverse.takeWhile (fun c => !lineTerm c) = pre.reverse := by
    apply List.takeWhile_eq_self_iff.mpr
    intro a ha
    exact List.all_eq_true.mp hc a (List.mem_reverse.mp ha)
  rw [hself, List.reverse_reverse]

/-! ## Claims -/

/-- **C1.** For every media file path, `getCompanionJsonPathForMediaFile`
returns the path of the first candidate — in the fixed total order given by
priorities 1 through 6 (direct names including counter-relocation, trailing
character recovery, prefix+supplemental-metadata scan, counter-parity-gated
prefix+`.json` scan, reverse-truncation scan, video→image fallback, each in
its own internal order) — that exists on the filesystem, and `none` when no
candidate at any priority exists. -/
theorem resolver_returns_first_existing_candidate (fs : FileSystem)
    (mediaFilePath : List Char) :
    getCompanionJsonPathForMediaFile fs mediaFilePath =
      (candidatePaths fs mediaFilePath).find? fs.existsSync :=
  getCompanion_eq_first_existing fs mediaFilePath

/-- **C2.** If the resolver returns a non-null result, that result passed the
filesystem existence check: the resolver never returns a path it did not
verify to exist. -/
theorem resolver_result_passed_existence_check (fs : FileSystem)
    (mediaFilePath jsonFilePath : List Char)
    (h : getCompanionJsonPathForMediaFile fs mediaFilePath = some jsonFilePath) :
    fs.existsSync jsonFilePath = true := by
  rw [getCompanion_eq_first_existing] at h
  exact List.find?_some h

/-- Witness for C2: on `fsSimple`, the resolver returns
`/photos/foo.jpg.json`, and that path indeed exists. -/
theorem resolver_result_passed_existence_check_witness :
    fsSimple.existsSync ("/photos/foo.jpg.json".data) = true :=
  resolver_result_passed_existence_check fsSimple ("/photos/foo.jpg".data)
    ("/photos/foo.jpg.json".data) (by decide)

/-- **C3, counterexample.** The stem `"a\nb(1)"` ends with a counter suffix,
yet the direct-name strategy does not generate
`{stemWithoutCounter}{ext}(<n>).json` = `"a\nb.jpg(1).json"`: the JavaScript
`.*` in `/(?<name>.*)(?<counter>\(\d+\))$/` cannot cross the line
terminator, so only `"b.jpg(1).json"` is generated. -/
theorem counterCandidates_newline_counterexample :
    endsWithCounter ("a\nb(1)".data) = true ∧
      ¬ ((("a\nb".data) ++ (".jpg".data) ++ ("(1)".data) ++ (".json".data)) ∈
          potentialJsonFileNames ("a\nb(1)".data) (".jpg".data)) := by decide

/-- **C3 (amended).** For every media stem ending with a counter suffix
`(<n>)` whose pre-counter part contains no line-terminator character, the
direct-name strategy additionally generates the candidates
`{stemWithoutCounter}{ext}(<n>).json` and
`{stemWithoutCounter}{ext}.supplemental-metadata(<n>).json` (extension
inserted before the counter); and for media file `foo(1).jpg` in a directory
where `foo.jpg(1).json` exists and `foo(1).jpg.json` does not, resolution
returns the path of `foo.jpg(1).json`. -/
theorem counterCandidates_generated :
    (∀ stem ext pre counter : List Char,
        counterSplit stem = some (pre, counter) →
        pre.all (fun c => !lineTerm c) = true →
        (pre ++ ext ++ counter ++ ".json".data) ∈ potentialJsonFileNames stem ext ∧
          (pre ++ ext ++ ".supplemental-metadata".data ++ counter ++ ".json".data) ∈
            potentialJsonFileNames stem ext) ∧
      getCompanionJsonPathForMediaFile fsFoo ("/photos/foo(1).jpg".data) =
        some ("/photos/foo.jpg(1).json".data) := by
  constructor
  · intro stem ext pre counter h hc
    have hm := nameWithCounterMatch_of_clean stem pre counter h hc
    simp only [potentialJsonFileNames, hm]
    constructor <;> (split <;> simp)
  · decide

/-- Witness for C3 (amended): both counter-relocation candidates are
generated for the stem `foo(1)` with extension `.jpg`. -/
theorem counterCandidates_generated_witness :
    (("foo".data) ++ (".jpg".data) ++ ("(1)".data) ++ (".json".data)) ∈
        potentialJsonFileNames ("foo(1)".data) (".jpg".data) ∧
      (("foo".data) ++ (".jpg".data) ++ (".supplemental-metadata".data)
          ++ ("(1)".data) ++ (".json".data)) ∈
        potentialJsonFileNames ("foo(1)".data) (".jpg".data) :=
  counterCandidates_generated.1 ("foo(1)".data) (".jpg".data) ("foo".data) ("(1)".data)
    (by decide) (by decide)

/-- **C4.** In the prefix + plain `.json` scan, an accepted entry always has
counter parity equal to the media stem's counter parity; in particular, for
`SNOW.mp4` (stem without counter) with
`SNOW.mp4.supplemental-metadata(1).json` present, this strategy rejects the
entry and resolution continues past it (here ultimately to `none`). -/
theorem jsonScan_counter_parity :
    (∀ (fs : FileSystem) (dir stem path : List Char),
        fallbackJsonScan fs dir stem = some path →
        ∃ files f, fs.readdirSync dir = some files ∧ f ∈ files ∧
          stem.isPrefixOf f = true ∧ (".json".data).isSuffixOf f = true ∧
          hasCounterSuffixJson f = endsWithCounter stem ∧
          fs.existsSync (resolvePath dir f) = true ∧ path = resolvePath dir f) ∧
      fallbackJsonScan fsSNOW ("/photos".data) ("SNOW".data) = none ∧
      getCompanionJsonPathForMediaFile fsSNOW ("/photos/SNOW.mp4".data) = none := by
  refine ⟨?_, by decide, by decide⟩
  intro fs dir stem path h
  unfold fallbackJsonScan at h
  cases hr : fs.readdirSync dir with
  | none => simp only [hr] at h; exact Option.noConfusion h
  | some files =>
    simp only [hr] at h
    cases hfind : files.find? (fun f =>
        stem.isPrefixOf f && (".json".data).isSuffixOf f
          && (hasCounterSuffixJson f == endsWithCounter stem)
          && fs.existsSync (resolvePath dir f)) with
    | none => rw [hfind] at h; cases h
    | some f =>
      rw [hfind] at h
      have hpred := List.find?_some hfind
      have hmem := List.mem_of_find?_eq_some hfind
      simp only [Bool.and_eq_true, beq_iff_eq] at hpred
      obtain ⟨⟨⟨h1, h2⟩, h3⟩, h4⟩ := hpred
      exact ⟨files, f, rfl, hmem, h1, h2, h3, h4, (Option.some.inj h).symm⟩

/-- Witness for C4: on `fsAB` with stem `AB`, the scan accepts `AB.json`,
whose counter parity (none) equals the stem's. -/
theorem jsonScan_counter_parity_witness :
    ∃ files f, fsAB.readdirSync ("/photos".data) = some files ∧ f ∈ files ∧
      ("AB".data).isPrefixOf f = true ∧ (".json".data).isSuffixOf f = true ∧
      hasCounterSuffixJson f = endsWithCounter ("AB".data) ∧
      fsAB.existsSync (resolvePath ("/photos".data) f) = true ∧
      ("/photos/AB.json".data) = resolvePath ("/photos".data) f :=
  jsonScan_counter_parity.1 fsAB ("/photos".data) ("AB".data)
    ("/photos/AB.json".data) (by decide)

/-- **C5.** The video→image cross-media fallback contributes nothing unless
the media extension (lower-cased) is a recognised video extension; and for
`IMG_0201.MP4` with no video-named sidecar but with `IMG_0201.jpg` and
`IMG_0201.jpg.supplemental-metadata.json` present, resolution returns the
path of `IMG_0201.jpg.supplemental-metadata.json`. -/
theorem videoFallback_gating_and_crossmedia :
    (∀ (fs : FileSystem) (dir stem ext : List Char),
        videoExtensions.contains (ext.map Char.toLower) = false →
        videoCompanionFallback fs dir stem ext = none) ∧
      getCompanionJsonPathForMediaFile fsIMG ("/photos/IMG_0201.MP4".data) =
        some ("/photos/IMG_0201.jpg.supplemental-metadata.json".data) := by
  refine ⟨?_, by decide⟩
  intro fs dir stem ext h
  unfold videoCompanionFallback
  rw [h]
  simp

/-- Witness for C5: `.txt` is not a video extension, so the fallback
contributes nothing. -/
theorem videoFallback_gating_witness :
    videoCompanionFallback fsIMG ("/photos".data) ("x".data) (".txt".data) = none :=
  videoFallback_gating_and_crossmedia.1 fsIMG ("/photos".data) ("x".data)
    (".txt".data) (by decide)

/-- **C6.** The base-name normaliser strips exactly one trailing `-edited`
suffix (in any character case) and no more: appending any spelling of
`-edited` to a stem and normalising returns the stem, and
`"foo-edited-edited"` normalises to `"foo-edited"`, not `"foo"`. -/
theorem stripEdited_strips_exactly_one :
    (∀ stem suf : List Char, suf.map Char.toLower = ("-edited".data) →
        stripEditedSuffix (stem ++ suf) = stem) ∧
      stripEditedSuffix ("foo-edited-edited".data) = ("foo-edited".data) := by
  constructor
  · intro stem suf h
    have hlen : suf.length = 7 := by
      have := congrArg List.length h
      simpa using this
    have hsuffix : ("-edited".data).isSuffixOf ((stem ++ suf).map Char.toLower) = true := by
      rw [List.map_append, h]
      exact List.isSuffixOf_iff_suffix.mpr (List.suffix_append _ _)
    unfold stripEditedSuffix
    rw [hsuffix, if_pos rfl, List.length_append, hlen]
    have harith : stem.length + 7 - 7 = stem.length := by omega
    rw [harith]
    exact List.take_left stem suf
  · decide

/-- Witness for C6: stripping a mixed-case `-EdiTeD` suffix. -/
theorem stripEdited_strips_exactly_one_witness :
    stripEditedSuffix (("x".data) ++ ("-EdiTeD".data)) = ("x".data) :=
  stripEdited_strips_exactly_one.1 ("x".data) ("-EdiTeD".data) (by decide)

/-- **C7.** When the directory listing cannot be obtained, each scan strategy
contributes no candidates and control passes on: the resolver's value is then
exactly the direct-name lookup followed by the video fallback.  In the
embedding the resolver is a total function into `Option`, so no error
crosses its boundary — only the final null-or-path result. -/
theorem resolver_absorbs_listing_failure (fs : FileSystem) (mediaFilePath : List Char)
    (h : fs.readdirSync (dirname mediaFilePath) = none) :
    fallbackSupplementalScan fs (dirname mediaFilePath)
        (mediaFileNameWithoutExtension mediaFilePath) = none ∧
      fallbackJsonScan fs (dirname mediaFilePath)
        (mediaFileNameWithoutExtension mediaFilePath) = none ∧
      fallbackReverseTruncation fs (dirname mediaFilePath)
        (mediaFileNameWithoutExtension mediaFilePath) = none ∧
      getCompanionJsonPathForMediaFile fs mediaFilePath =
        (directNameLookup fs (dirname mediaFilePath)
            (mediaFileNameWithoutExtension mediaFilePath) (extname mediaFilePath)).or
          (videoCompanionFallback fs (dirname mediaFilePath)
            (mediaFileNameWithoutExtension mediaFilePath) (extname mediaFilePath)) := by
  have ha : fallbackSupplementalScan fs (dirname mediaFilePath)
      (mediaFileNameWithoutExtension mediaFilePath) = none := by
    unfold fallbackSupplementalScan; rw [h]
  have hb : fallbackJsonScan fs (dirname mediaFilePath)
      (mediaFileNameWithoutExtension mediaFilePath) = none := by
    unfold fallbackJsonScan; rw [h]
  have hc : fallbackReverseTruncation fs (dirname mediaFilePath)
      (mediaFileNameWithoutExtension mediaFilePath) = none := by
    unfold fallbackReverseTruncation; rw [h]
  refine ⟨ha, hb, hc, ?_⟩
  simp only [getCompanionJsonPathForMediaFile]
  rw [ha, hb, hc]
  simp only [Option.none_or]

/-- Witness for C7: with every `readdirSync` failing, the resolver still
returns the direct-name hit `/photos/bar.jpg.json`. -/
theorem resolver_absorbs_listing_failure_witness :
    fallbackSupplementalScan fsNoListing (dirname ("/photos/bar.jpg".data))
        (mediaFileNameWithoutExtension ("/photos/bar.jpg".data)) = none ∧
      fallbackJsonScan fsNoListing (dirname ("/photos/bar.jpg".data))
        (mediaFileNameWithoutExtension ("/photos/bar.jpg".data)) = none ∧
      fallbackReverseTruncation fsNoListing (dirname ("/photos/bar.jpg".data))
        (mediaFileNameWithoutExtension ("/photos/bar.jpg".data)) = none ∧
      getCompanionJsonPathForMediaFile fsNoListing ("/photos/bar.jpg".data) =
        (directNameLookup fsNoListing (dirname ("/photos/bar.jpg".data))
            (mediaFileNameWithoutExtension ("/photos/bar.jpg".data))
            (extname ("/photos/bar.jpg".data))).or
          (videoCompanionFallback fsNoListing (dirname ("/photos/bar.jpg".data))
            (mediaFileNameWithoutExtension ("/photos/bar.jpg".data))
            (extname ("/photos/bar.jpg".data))) :=
  resolver_absorbs_listing_failure fsNoListing ("/photos/bar.jpg".data) (by decide)

/-- **C8.** When the metadata write fails (and the quarantine copies
themselves succeed), `updateExifMetadata` resolves without error and its
trace contains a copy of the original media file into the error directory
under its original filename, plus — whenever the companion JSON was resolved
and exists — a copy of that JSON under its original filename. -/
theorem updateExif_quarantines_on_write_failure (env : ExifEnv)
    (fileInfo : MediaFileInfo) (timeTaken errorDir : List Char)
    (hsup : env.doesFileSupportExif fileInfo.outputFilePath = true)
    (hw : env.writeOk = false)
    (hc1 : env.copyOk fileInfo.outputFilePath
      (resolvePath errorDir fileInfo.mediaFileName) = true)
    (hc2 : (match fileInfo.jsonFilePath, fileInfo.jsonFileName with
            | some src, some name => env.copyOk src (resolvePath errorDir name)
            | _, _ => true) = true) :
    (updateExifMetadata env fileInfo timeTaken errorDir).1 = Except.ok () ∧
      FsAction.copyFile fileInfo.outputFilePath
          (resolvePath errorDir fileInfo.mediaFileName) ∈
        (updateExifMetadata env fileInfo timeTaken errorDir).2 ∧
      (∀ src name : List Char, fileInfo.jsonFileExists = true →
        fileInfo.jsonFilePath = some src → fileInfo.jsonFileName = some name →
        truthyStr (some name) = true → truthyStr (some src) = true →
        FsAction.copyFile src (resolvePath errorDir name) ∈
          (updateExifMetadata env fileInfo timeTaken errorDir).2) := by
  have hq : updateExifMetadata env fileInfo timeTaken errorDir =
      quarantineFiles env fileInfo errorDir [] := by
    unfold updateExifMetadata
    rw [hsup]
    cases env.toIso timeTaken with
    | none => simp
    | some iso => simp [hw]
  rw [hq]
  unfold quarantineFiles
  simp only [hc1, if_true, List.nil_append]
  cases hg : (fileInfo.jsonFileExists && truthyStr fileInfo.jsonFileName
      && truthyStr fileInfo.jsonFilePath)
  · simp only [Bool.false_eq_true, if_false]
    refine ⟨by trivial, by simp, ?_⟩
    intro src name hex hsrc hname htn hts
    rw [hex, hsrc, hname, htn, hts] at hg
    simp at hg
  · simp only [if_true]
    cases hsrc0 : fileInfo.jsonFilePath with
    | none => rw [hsrc0] at hg; simp [truthyStr] at hg
    | some j =>
      cases hname0 : fileInfo.jsonFileName with
      | none => rw [hname0] at hg; simp [truthyStr] at hg
      | some n =>
        simp only [hsrc0, hname0] at hc2
        simp only [hsrc0, hname0, hc2, if_true]
        refine ⟨by trivial, by simp, ?_⟩
        intro src name hex hsrc hname htn hts
        cases Option.some.inj hsrc
        cases Option.some.inj hname
        simp

/-- Witness for C8: with `envWriteFails` and `fiWitness` (companion JSON
resolved and existing), both files are quarantined and the call succeeds. -/
theorem updateExif_quarantines_on_write_failure_witness :
    (updateExifMetadata envWriteFails fiWitness ("2020-01-01".data) ("/err".data)).1 =
        Except.ok () ∧
      FsAction.copyFile fiWitness.outputFilePath
          (resolvePath ("/err".data) fiWitness.mediaFileName) ∈
        (updateExifMetadata envWriteFails fiWitness ("2020-01-01".data) ("/err".data)).2 ∧
      FsAction.copyFile ("/in/a.jpg.json".data)
          (resolvePath ("/err".data) ("a.jpg.json".data)) ∈
        (updateExifMetadata envWriteFails fiWitness ("2020-01-01".data) ("/err".data)).2 := by
  obtain ⟨h1, h2, h3⟩ := updateExif_quarantines_on_write_failure envWriteFails fiWitness
    ("2020-01-01".data) ("/err".data) (by decide) (by decide) (by decide) (by decide)
  exact ⟨h1, h2, h3 ("/in/a.jpg.json".data) ("a.jpg.json".data)
    (by decide) (by decide) (by decide) (by decide) (by decide)⟩

/-- **C9.** The verifier defaults conservatively to a match: it returns
`true` when the embedded-metadata read throws, and returns `true`
unconditionally when the media file does not support embedded metadata; in
the latter case the writer `updateExifMetadata` also no-ops, returning
success with an empty effect trace. -/
theorem verifier_conservative_defaults :
    (∀ (env : VerifyEnv) (mediaFile : MediaFileInfo), env.exifRead = none →
        doesExifDateMatchPhotoTakenTime env mediaFile = true) ∧
      (∀ (env : VerifyEnv) (mediaFile : MediaFileInfo),
        env.doesFileSupportExif mediaFile.outputFilePath = false →
        doesExifDateMatchPhotoTakenTime env mediaFile = true) ∧
      (∀ (env : ExifEnv) (fileInfo : MediaFileInfo) (timeTaken errorDir : List Char),
        env.doesFileSupportExif fileInfo.outputFilePath = false →
        updateExifMetadata env fileInfo timeTaken errorDir = (Except.ok (), [])) := by
  refine ⟨?_, ?_, ?_⟩
  · intro env mediaFile h
    unfold doesExifDateMatchPhotoTakenTime
    rw [h]
    cases env.doesFileSupportExif mediaFile.outputFilePath <;>
      cases env.photoTakenTime <;> simp
  · intro env mediaFile h
    unfold doesExifDateMatchPhotoTakenTime
    rw [h]
    simp
  · intro env fileInfo timeTaken errorDir h
    unfold updateExifMetadata
    rw [h]
    simp

/-- Witness for C9: a throwing `exiftool.read` reports a match; an
unsupported extension reports a match and the writer does nothing. -/
theorem verifier_conservative_defaults_witness :
    doesExifDateMatchPhotoTakenTime venvReadFails fiWitness = true ∧
      doesExifDateMatchPhotoTakenTime venvNoExif fiWitness = true ∧
      updateExifMetadata envNoExif fiWitness ("t".data) ("/err".data) =
        (Except.ok (), []) :=
  ⟨verifier_conservative_defaults.1 venvReadFails fiWitness (by decide),
   (verifier_conservative_defaults.2).1 venvNoExif fiWitness (by decide),
   (verifier_conservative_defaults.2).2 envNoExif fiWitness ("t".data) ("/err".data)
     (by decide)⟩

/-- **C10.** The deletion of the `_original` backup happens inside the same
`try` block as the metadata write, so when the write succeeds but that
deletion fails (and the quarantine copies succeed), the error branch still
runs: the call resolves without error and its trace contains the successful
metadata write followed by the quarantine copy of the media file (and of the
companion JSON under the usual gate). -/
theorem updateExif_quarantines_on_unlink_failure (env : ExifEnv)
    (fileInfo : MediaFileInfo) (timeTaken errorDir iso : List Char)
    (hsup : env.doesFileSupportExif fileInfo.outputFilePath = true)
    (hiso : env.toIso timeTaken = some iso)
    (hw : env.writeOk = true) (hu : env.unlinkOk = false)
    (hc1 : env.copyOk fileInfo.outputFilePath
      (resolvePath errorDir fileInfo.mediaFileName) = true)
    (hc2 : (match fileInfo.jsonFilePath, fileInfo.jsonFileName with
            | some src, some name => env.copyOk src (resolvePath errorDir name)
            | _, _ => true) = true) :
    (updateExifMetadata env fileInfo timeTaken errorDir).1 = Except.ok () ∧
      (∃ tags, FsAction.exifWrite fileInfo.outputFilePath tags ∈
        (updateExifMetadata env fileInfo timeTaken errorDir).2) ∧
      FsAction.copyFile fileInfo.outputFilePath
          (resolvePath errorDir fileInfo.mediaFileName) ∈
        (updateExifMetadata env fileInfo timeTaken errorDir).2 ∧
      (∀ src name : List Char, fileInfo.jsonFileExists = true →
        fileInfo.jsonFilePath = some src → fileInfo.jsonFileName = some name →
        truthyStr (some name) = true → truthyStr (some src) = true →
        FsAction.copyFile src (resolvePath errorDir name) ∈
          (updateExifMetadata env fileInfo timeTaken errorDir).2) := by
  unfold updateExifMetadata
  rw [hsup, hiso]
  simp only [hw, hu, Bool.not_true, Bool.false_eq_true, if_false, if_true]
  unfold quarantineFiles
  simp only [hc1, if_true, List.cons_append, List.nil_append]
  cases hg : (fileInfo.jsonFileExists && truthyStr fileInfo.jsonFileName
      && truthyStr fileInfo.jsonFilePath)
  · simp only [Bool.false_eq_true, if_false]
    refine ⟨by trivial, ⟨_, List.mem_cons_self _ _⟩, by simp, ?_⟩
    intro src name hex hsrc hname htn hts
    rw [hex, hsrc, hname, htn, hts] at hg
    simp at hg
  · simp only [if_true]
    cases hsrc0 : fileInfo.jsonFilePath with
    | none => rw [hsrc0] at hg; simp [truthyStr] at hg
    | some j =>
      cases hname0 : fileInfo.jsonFileName with
      | none => rw [hname0] at hg; simp [truthyStr] at hg
      | some n =>
        simp only [hsrc0, hname0] at hc2
        simp only [hsrc0, hname0, hc2, if_true, List.cons_append, List.nil_append]
        refine ⟨by trivial, ⟨_, List.mem_cons_self _ _⟩, by simp, ?_⟩
        intro src name hex hsrc hname htn hts
        cases Option.some.inj hsrc
        cases Option.some.inj hname
        simp

/-- Witness for C10: write succeeds, backup deletion fails, and the trace
holds the write followed by both quarantine copies under their original
filenames. -/
theorem updateExif_quarantines_on_unlink_failure_witness :
    (updateExifMetadata envUnlinkFails fiWitness ("2020-01-01".data) ("/err".data)).1 =
        Except.ok () ∧
      (∃ tags, FsAction.exifWrite fiWitness.outputFilePath tags ∈
        (updateExifMetadata envUnlinkFails fiWitness ("2020-01-01".data) ("/err".data)).2) ∧
      FsAction.copyFile fiWitness.outputFilePath
          (resolvePath ("/err".data) fiWitness.mediaFileName) ∈
        (updateExifMetadata envUnlinkFails fiWitness ("2020-01-01".data) ("/err".data)).2 ∧
      FsAction.copyFile ("/in/a.jpg.json".data)
          (resolvePath ("/err".data) ("a.jpg.json".data)) ∈
        (updateExifMetadata envUnlinkFails fiWitness ("2020-01-01".data) ("/err".data)).2 := by
  obtain ⟨h1, h2, h3, h4⟩ := updateExif_quarantines_on_unlink_failure envUnlinkFails
    fiWitness ("2020-01-01".data) ("/err".data) ("2020-01-01".data)
    (by decide) (by decide) (by decide) (by decide) (by decide) (by decide)
  exact ⟨h1, h2, h3, h4 ("/in/a.jpg.json".data) ("a.jpg.json".data)
    (by decide) (by decide) (by decide) (by decide) (by decide)⟩
